import Mathlib

/-!
Shallow embedding of the BacktestKit core:

* `analyzers/custom_metrics.py` — `CustomMetricsAnalyzer`: the equity /
  drawdown tracker (`next`, `_update_drawdown`), the profit-factor
  calculation (`_calculate_profit_factor`, `get_analysis`) and the trade
  table export (`get_trades_dataframe`).
* `strategies/breakout20.py` — `Breakout20Strategy`: per-instrument signal
  state (`tracking`, `entry_low`, `order_pending`), bar processing
  (`process_data`, `handle_no_position`, `handle_with_position`) and order
  notifications (`notify_order`).

Python floats are modelled as rationals (ℚ); dates as integers (ℤ,
ordinal days — only their order matters); the float infinity produced by
`_calculate_profit_factor` is modelled by a dedicated constructor of an
explicit sum type, mirroring that `float('inf')` is a distinguished value
of the Python float type.
-/

/-- State of `CustomMetricsAnalyzer` (the fields used by `next` /
`_update_drawdown`; the trade lists are handled separately as pure inputs
of the pure calculation methods). `start_date`/`start_value` are `none`
until the first `next` call, mirroring the `None` values set in
`__init__`. -/
structure AnalyzerState where
  start_date : Option Int
  start_value : Option ℚ
  portfolio_values : List ℚ
  dates : List Int
  peak_value : ℚ
  max_drawdown : ℚ
  max_drawdown_duration : Nat
  current_drawdown_duration : Nat
  in_drawdown : Bool
  daily_returns : List ℚ
deriving Repr, DecidableEq

/-- `CustomMetricsAnalyzer.__init__`: every tracker field starts at its
zero/empty value.  (`start()` later resets `peak_value` to the broker's
cash, but the first `next()` overwrites `peak_value` with the first
recorded value, so the behaviour modelled here is unchanged.) -/
def initAnalyzer : AnalyzerState :=
  { start_date := none
    start_value := none
    portfolio_values := []
    dates := []
    peak_value := 0
    max_drawdown := 0
    max_drawdown_duration := 0
    current_drawdown_duration := 0
    in_drawdown := false
    daily_returns := [] }

/-- `CustomMetricsAnalyzer._update_drawdown(current_value)`. -/
def update_drawdown (s : AnalyzerState) (current_value : ℚ) : AnalyzerState :=
  if s.peak_value < current_value then
    { s with
      peak_value := current_value
      in_drawdown := false
      current_drawdown_duration :=
        if s.in_drawdown then 0 else s.current_drawdown_duration }
  else
    let dur := s.current_drawdown_duration + 1
    { s with
      in_drawdown := true
      current_drawdown_duration := dur
      max_drawdown_duration := max s.max_drawdown_duration dur
      max_drawdown :=
        max s.max_drawdown ((s.peak_value - current_value) / s.peak_value) }

/-- `CustomMetricsAnalyzer.next()` for one simulated day: on the first
call record the start date/value and seed the peak, then append the
equity point, append the daily return when at least two points exist, and
update the drawdown state.  The date is appended unconditionally — the
source performs no ordering check on it. -/
def nextDay (s : AnalyzerState) (current_date : Int) (current_value : ℚ) :
    AnalyzerState :=
  let s1 :=
    if s.start_date = none then
      { s with
        start_date := some current_date
        start_value := some current_value
        peak_value := current_value }
    else s
  let vals := s1.portfolio_values ++ [current_value]
  let s2 :=
    { s1 with
      portfolio_values := vals
      dates := s1.dates ++ [current_date]
      daily_returns :=
        if 1 < vals.length then
          let prev := s1.portfolio_values.getLastD 0
          s1.daily_returns ++ [(current_value - prev) / prev]
        else s1.daily_returns }
  update_drawdown s2 current_value

/-- Feeding a sequence of `(date, portfolio_value)` points through `next`,
from a given starting state. -/
def recordFrom (s : AnalyzerState) (pts : List (Int × ℚ)) : AnalyzerState :=
  pts.foldl (fun acc p => nextDay acc p.1 p.2) s

/-- Feeding a sequence of `(date, portfolio_value)` points through `next`,
starting from the freshly constructed analyzer. -/
def recordAll (pts : List (Int × ℚ)) : AnalyzerState :=
  recordFrom initAnalyzer pts

/-- Maximum of a list of rationals (`0` on the empty list; only ever used
on non-empty lists). -/
def maxListQ : List ℚ → ℚ
  | [] => 0
  | a :: l => l.foldl max a

/-- One OHLC bar, restricted to the fields `Breakout20Strategy` reads
(`data.high`, `data.low`, `data.close`). -/
structure Bar where
  high : ℚ
  low : ℚ
  close : ℚ
deriving Repr, DecidableEq

/-- Per-instrument mutable state of `Breakout20Strategy`: the
`self.tracking[data]`, `self.entry_low[data]` and `self.order_pending[data]`
entries.  `order_pending` holds an order object or `None` in the source
and is only ever used for its truthiness, so it is modelled as a `Bool`. -/
structure InstrState where
  tracking : Bool
  entry_low : Option ℚ
  order_pending : Bool
deriving Repr, DecidableEq

/-- An intent emitted by the strategy: `self.buy(data=data)` (sizing is
delegated to the external sizer) or `self.sell(data=data, size=...)`. -/
inductive Intent where
  | buy : Intent
  | sell : Int → Intent
deriving Repr, DecidableEq

/-- The last `n` elements of a list (the window a backtrader indicator
with `period=n` sees at the current bar, current bar included). -/
def lastWindow {α : Type} (n : Nat) (l : List α) : List α :=
  (l.reverse.take n).reverse

/-- `bt.indicators.SimpleMovingAverage(data.close, period=n)` evaluated at
the current bar: arithmetic mean of the last `n` closes of the history
(which includes the current bar). -/
def smaVal (n : Nat) (hist : List Bar) : ℚ :=
  ((lastWindow n hist).map Bar.close).sum / n

/-- `bt.indicators.Highest(data.high, period=m)` evaluated at the current
bar: maximum of the last `m` highs of the history.  Note that the window
includes the current bar itself. -/
def highestVal (m : Nat) (hist : List Bar) : ℚ :=
  maxListQ ((lastWindow m hist).map Bar.high)

/-- Modelled from the spec: the rolling high "computed over bars
*preceding* the breakout bar" (spec §4.2), i.e. the maximum high over the
last `m` bars of the history *excluding* the current bar.  This
definition follows the spec's words and exists only to be compared with
the source's `highestVal`, which includes the current bar. -/
def spec_rolling_high_prior (m : Nat) (past : List Bar) : ℚ :=
  maxListQ ((lastWindow m past).map Bar.high)

/-- `Breakout20Strategy.handle_no_position`: start tracking when the
close falls strictly below the SMA; while tracking, emit a buy intent
(and mark the order pending) when the close is strictly above the
`Highest` value. -/
def handle_no_position (st : InstrState)
    (current_close sma_value highest_value : ℚ) : InstrState × Option Intent :=
  let st1 :=
    if st.tracking = false ∧ current_close < sma_value then
      { st with tracking := true }
    else st
  if st1.tracking = true ∧ highest_value < current_close then
    ({ st1 with order_pending := true }, some Intent.buy)
  else
    (st1, none)

/-- `Breakout20Strategy.handle_with_position`: when an entry reference
low is recorded and the bar's intraday low is strictly below it, emit a
sell intent for the whole current position (and mark the order pending). -/
def handle_with_position (st : InstrState) (current_low : ℚ)
    (position_size : Int) : InstrState × Option Intent :=
  match st.entry_low with
  | none => (st, none)
  | some r =>
    if current_low < r then
      ({ st with order_pending := true }, some (Intent.sell position_size))
    else
      (st, none)

/-- `Breakout20Strategy.process_data` for one instrument on one bar.
`past` is the bar history before the current bar `cur` (so the full
history seen by the indicators is `past ++ [cur]`), and `position_size`
is the broker's current position size for the instrument (`not position`
in the source is position-size zero).  Skips the bar when fewer than
`max(sma_window, high_window)` bars exist or an order is pending. -/
def process_data (sma_window high_window : Nat) (st : InstrState)
    (past : List Bar) (cur : Bar) (position_size : Int) :
    InstrState × Option Intent :=
  let hist := past ++ [cur]
  if hist.length < max sma_window high_window then
    (st, none)
  else if st.order_pending = true then
    (st, none)
  else if position_size = 0 then
    handle_no_position st cur.close (smaVal sma_window hist)
      (highestVal high_window hist)
  else
    handle_with_position st cur.low position_size

/-- Order-status notifications as seen by
`Breakout20Strategy.notify_order`.  A completed buy carries the current
bar's intraday low (`data.low[0]`), which the source records as the entry
reference low. -/
inductive OrderStatus where
  | submitted : OrderStatus
  | accepted : OrderStatus
  | completedBuy : ℚ → OrderStatus
  | completedSell : OrderStatus
  | canceled : OrderStatus
  | margin : OrderStatus
  | rejected : OrderStatus
deriving Repr, DecidableEq

/-- `Breakout20Strategy.notify_order`: Submitted/Accepted store the
pending order and return early; a completed buy records the entry
reference low; a completed sell clears tracking and the reference low;
Canceled/Margin/Rejected only log.  All paths except Submitted/Accepted
fall through to clearing the pending-order entry.  The source performs no
check that a pending order exists when a completion arrives. -/
def notify_order (st : InstrState) (status : OrderStatus) : InstrState :=
  match status with
  | OrderStatus.submitted => { st with order_pending := true }
  | OrderStatus.accepted => { st with order_pending := true }
  | OrderStatus.completedBuy lo =>
      { st with entry_low := some lo, order_pending := false }
  | OrderStatus.completedSell =>
      { st with tracking := false, entry_low := none, order_pending := false }
  | OrderStatus.canceled => { st with order_pending := false }
  | OrderStatus.margin => { st with order_pending := false }
  | OrderStatus.rejected => { st with order_pending := false }

/-- One entry of `CustomMetricsAnalyzer.trades` (the `trade_info` dict
built in `notify_trade`), with fields in the dict's insertion order. -/
structure TradeInfo where
  entry_date : Int
  exit_date : Int
  symbol : String
  size : Int
  entry_price : ℚ
  exit_price : ℚ
  pnl : ℚ
  pnl_comm : ℚ
  commission : ℚ
  duration : Int
  return_pct : ℚ
deriving Repr, DecidableEq

/-- Python's `round` to the nearest integer (banker's rounding: ties go
to the even integer). -/
def pyRound (x : ℚ) : Int :=
  let f := ⌊x⌋
  let r := x - f
  if r < 1 / 2 then f
  else if 1 / 2 < r then f + 1
  else if f % 2 = 0 then f else f + 1

/-- Python's `round(x, 2)` / pandas `.round(2)`: round to 2 decimal
places. -/
def round2 (x : ℚ) : ℚ :=
  (pyRound (x * 100) : ℚ) / 100

/-- Result of `_calculate_profit_factor`: either a finite float (here a
rational) or the distinguished `float('inf')` value. -/
inductive ProfitFactor where
  | fin : ℚ → ProfitFactor
  | posInf : ProfitFactor
deriving Repr, DecidableEq

/-- `CustomMetricsAnalyzer._calculate_profit_factor`, as a function of
the closed trades' net P&L values (`pnl_comm`).  Winning trades are those
with `pnlcomm > 0`, losing trades those with `pnlcomm < 0` (the
classification made in `notify_trade`). -/
def calculate_profit_factor (pnl_comms : List ℚ) : ProfitFactor :=
  let total_profit := (pnl_comms.filter (fun p => 0 < p)).sum
  let total_loss := |(pnl_comms.filter (fun p => p < 0)).sum|
  if total_loss = 0 then
    if 0 < total_profit then ProfitFactor.posInf else ProfitFactor.fin 0
  else
    ProfitFactor.fin (total_profit / total_loss)

/-- A value of the `get_analysis` summary mapping: a number or a string
marker. -/
inductive SummaryVal where
  | num : ℚ → SummaryVal
  | text : String → SummaryVal
deriving Repr, DecidableEq

/-- The `profit_factor` entry of the `get_analysis` summary:
`round(profit_factor, 2) if profit_factor != float('inf') else 'Inf'`. -/
def profit_factor_summary (pnl_comms : List ℚ) : SummaryVal :=
  match calculate_profit_factor pnl_comms with
  | ProfitFactor.posInf => SummaryVal.text "Inf"
  | ProfitFactor.fin q => SummaryVal.num (round2 q)

/-- Column order of the exported trade table: the insertion order of the
`trade_info` dict keys, which `pd.DataFrame` preserves and
`to_csv` writes as the header. -/
def tradeColumns : List String :=
  ["entry_date", "exit_date", "symbol", "size", "entry_price", "exit_price",
   "pnl", "pnl_comm", "commission", "duration", "return_pct"]

/-- The per-row effect of `get_trades_dataframe`'s rounding loop: the
columns in `numeric_columns` are rounded to 2 decimals; `size` and
`duration` (integers) and the date columns are left untouched. -/
def roundTrade (t : TradeInfo) : TradeInfo :=
  { t with
    entry_price := round2 t.entry_price
    exit_price := round2 t.exit_price
    pnl := round2 t.pnl
    pnl_comm := round2 t.pnl_comm
    commission := round2 t.commission
    return_pct := round2 t.return_pct }

/-- Insert a trade into a list sorted by `entry_date`, keeping it
sorted. -/
def insertByEntry (t : TradeInfo) : List TradeInfo → List TradeInfo
  | [] => [t]
  | u :: us =>
    if t.entry_date ≤ u.entry_date then t :: u :: us
    else u :: insertByEntry t us

/-- Sorting by `entry_date` (`df.sort_values('entry_date')`), modelled as
insertion sort; the claims proved below depend only on sortedness and on
the multiset of rows, which any correct sort satisfies. -/
def sortByEntry : List TradeInfo → List TradeInfo
  | [] => []
  | t :: ts => insertByEntry t (sortByEntry ts)

/-- `CustomMetricsAnalyzer.get_trades_dataframe`: an empty trade list
yields an empty DataFrame (no columns, no rows); otherwise the frame has
the `trade_info` columns, rows sorted by `entry_date`, and the
`numeric_columns` rounded to 2 decimals. -/
def get_trades_dataframe (trades : List TradeInfo) :
    List String × List TradeInfo :=
  if trades = [] then ([], [])
  else (tradeColumns, (sortByEntry trades).map roundTrade)

/-- A sample closed trade (entry date 1), used as concrete input to the
export theorems. -/
def sampleTradeA : TradeInfo :=
  { entry_date := 1
    exit_date := 2
    symbol := "A"
    size := 3
    entry_price := 10
    exit_price := 11
    pnl := 3
    pnl_comm := 2
    commission := 1
    duration := 1
    return_pct := 10 }

/-- A second sample closed trade (entry date 5), used as concrete input
to the export theorems. -/
def sampleTradeB : TradeInfo :=
  { entry_date := 5
    exit_date := 7
    symbol := "B"
    size := 2
    entry_price := 20
    exit_price := 21
    pnl := 2
    pnl_comm := 1
    commission := 1
    duration := 2
    return_pct := 5 }

/-- Invariant of the drawdown tracker after at least one record with all
recorded values positive: the start fields are set, the peak is the
(positive) maximum of the recorded values, and the maximum drawdown
fraction lies in `[0, 1]`. -/
def TrackerInv (s : AnalyzerState) : Prop :=
  s.start_date ≠ none ∧
  s.portfolio_values ≠ [] ∧
  s.peak_value = maxListQ s.portfolio_values ∧
  0 < s.peak_value ∧
  0 ≤ s.max_drawdown ∧
  s.max_drawdown ≤ 1

/-- Claim C10: for every non-empty run, the very first recorded equity
point puts the drawdown tracker into a drawdown state: `peak_value` is
set to the first recorded value, the strict new-peak comparison fails, so
`in_drawdown` becomes true and `current_drawdown_days` becomes 1, while
the drawdown fraction (hence `max_drawdown`) is 0. -/
theorem first_record_enters_drawdown (d : Int) (v : ℚ) :
    (nextDay initAnalyzer d v).in_drawdown = true ∧
    (nextDay initAnalyzer d v).current_drawdown_duration = 1 ∧
    (nextDay initAnalyzer d v).max_drawdown = 0 ∧
    (nextDay initAnalyzer d v).peak_value = v := by
  simp [nextDay, update_drawdown, initAnalyzer, lt_irrefl, sub_self, zero_div]

/-- Claim C5, counterexample: the code performs no date-ordering check.
Recording `(date 3, 90)` after `(date 5, 100)` — an out-of-order input —
is silently accepted: both points are appended and no failure occurs
(`next` has no error path at all). -/
theorem out_of_order_date_cex :
    (recordAll [(5, 100), (3, 90)]).dates = [5, 3] ∧
    (recordAll [(5, 100), (3, 90)]).portfolio_values = [100, 90] := by
  decide

/-- Claim C5, amended: recording an equity point appends it to the series
unconditionally — the date is never compared with the previously recorded
date, so out-of-order or duplicate-date input is silently accepted, not
rejected. -/
theorem record_appends_unconditionally (s : AnalyzerState) (d : Int) (v : ℚ) :
    (nextDay s d v).dates = s.dates ++ [d] ∧
    (nextDay s d v).portfolio_values = s.portfolio_values ++ [v] := by
  unfold nextDay update_drawdown
  split <;> dsimp only <;> split <;> simp

/-- Claim C3, counterexample: a completed-buy fill notification arriving
for an instrument with no outstanding pending order (`order_pending`
false) is processed silently exactly like a matched fill — the entry
reference low is recorded and no error is raised (`notify_order` has no
error path at all), contradicting the claim that such a fill is surfaced
as a fatal invariant violation. -/
theorem fill_no_pending_cex :
    notify_order { tracking := true, entry_low := none, order_pending := false }
        (OrderStatus.completedBuy 50) =
      { tracking := true, entry_low := some 50, order_pending := false } := by
  rfl

/-- Claim C3, amended: a fill notification for an instrument with no
outstanding pending order is processed normally — a completed buy records
the entry reference low, a completed sell clears tracking state — and the
run continues; the source performs no pending-order invariant check in
`notify_order`. -/
theorem fill_no_pending_processed (st : InstrState) (lo : ℚ)
    (_hpend : st.order_pending = false) :
    notify_order st (OrderStatus.completedBuy lo) =
      { st with entry_low := some lo, order_pending := false } ∧
    notify_order st OrderStatus.completedSell =
      { st with tracking := false, entry_low := none, order_pending := false } :=
  ⟨rfl, rfl⟩

/-- Witness for `fill_no_pending_processed` at a concrete no-pending
state. -/
theorem fill_no_pending_processed_witness :
    ({ tracking := true, entry_low := none, order_pending := false } :
        InstrState).order_pending = false ∧
    (notify_order { tracking := true, entry_low := none, order_pending := false }
        (OrderStatus.completedBuy 50) =
      { tracking := true, entry_low := some 50, order_pending := false } ∧
    notify_order { tracking := true, entry_low := none, order_pending := false }
        OrderStatus.completedSell =
      { tracking := false, entry_low := none, order_pending := false }) :=
  ⟨rfl, fill_no_pending_processed _ 50 rfl⟩

/-- Claim C8: while an order is pending, `process_data` emits no intent
and leaves the instrument state unchanged; and a canceled, margin or
rejected order notification clears only the pending flag, leaving
`tracking` and `entry_low` (and, trivially, the broker-held position,
which `notify_order` never touches) unchanged. -/
theorem pending_order_freeze (sma_window high_window : Nat) (st : InstrState)
    (past : List Bar) (cur : Bar) (position_size : Int)
    (hpend : st.order_pending = true) :
    process_data sma_window high_window st past cur position_size = (st, none) ∧
    notify_order st OrderStatus.canceled = { st with order_pending := false } ∧
    notify_order st OrderStatus.margin = { st with order_pending := false } ∧
    notify_order st OrderStatus.rejected = { st with order_pending := false } := by
  refine ⟨?_, rfl, rfl, rfl⟩
  simp [process_data, hpend]

/-- Witness for `pending_order_freeze` at a concrete pending state. -/
theorem pending_order_freeze_witness :
    ({ tracking := true, entry_low := some 50, order_pending := true } :
        InstrState).order_pending = true ∧
    (process_data 1 1 { tracking := true, entry_low := some 50, order_pending := true }
        [] { high := 60, low := 40, close := 55 } 0 =
      ({ tracking := true, entry_low := some 50, order_pending := true }, none) ∧
    notify_order { tracking := true, entry_low := some 50, order_pending := true }
        OrderStatus.canceled =
      { tracking := true, entry_low := some 50, order_pending := false } ∧
    notify_order { tracking := true, entry_low := some 50, order_pending := true }
        OrderStatus.margin =
      { tracking := true, entry_low := some 50, order_pending := false } ∧
    notify_order { tracking := true, entry_low := some 50, order_pending := true }
        OrderStatus.rejected =
      { tracking := true, entry_low := some 50, order_pending := false }) :=
  ⟨rfl, pending_order_freeze 1 1 _ [] _ 0 rfl⟩

/-- Claim C1, counterexample: for the equity sequence
`[100, 90, 95, 80, 120]` the final `max_drawdown_duration` is 4, not 3:
the very first record (100, equal to the just-seeded peak) already fails
the strict new-peak test and counts as a drawdown day, so the four
records before the final recovery all count. -/
theorem equity_seq_drawdown_days_cex :
    (recordAll [(1, 100), (2, 90), (3, 95), (4, 80), (5, 120)]).max_drawdown_duration
        = 4 ∧
    (recordAll [(1, 100), (2, 90), (3, 95), (4, 80), (5, 120)]).max_drawdown_duration
        ≠ 3 := by
  decide

/-- Claim C1, amended: for the equity sequence `[100, 90, 95, 80, 120]`
the running peak takes the values `100, 100, 100, 100, 120`, the final
`max_drawdown` fraction is `0.20`, and the final `max_drawdown_duration`
is 4 (the first record, equal to the initial peak, already counts as a
drawdown day). -/
theorem equity_seq_drawdown_amended :
    (List.range 5).map
        (fun i =>
          (recordAll ([(1, 100), (2, 90), (3, 95), (4, 80), (5, 120)].take (i + 1))).peak_value)
        = [100, 100, 100, 100, 120] ∧
    (recordAll [(1, 100), (2, 90), (3, 95), (4, 80), (5, 120)]).max_drawdown
        = 1 / 5 ∧
    (recordAll [(1, 100), (2, 90), (3, 95), (4, 80), (5, 120)]).max_drawdown_duration
        = 4 := by
  refine ⟨by decide, ?_, by decide⟩
  have h1 : nextDay initAnalyzer 1 100 =
      { start_date := some 1, start_value := some 100, portfolio_values := [100],
        dates := [1], peak_value := 100, max_drawdown := 0,
        max_drawdown_duration := 1, current_drawdown_duration := 1,
        in_drawdown := true, daily_returns := [] } := by
    norm_num [nextDay, update_drawdown, initAnalyzer, Option.some_ne_none]
  have h2 : nextDay (nextDay initAnalyzer 1 100) 2 90 =
      { start_date := some 1, start_value := some 100,
        portfolio_values := [100, 90], dates := [1, 2], peak_value := 100,
        max_drawdown := 1 / 10, max_drawdown_duration := 2,
        current_drawdown_duration := 2, in_drawdown := true,
        daily_returns := [-(1 / 10)] } := by
    rw [h1]; norm_num [nextDay, update_drawdown, Option.some_ne_none]
  have h3 : nextDay (nextDay (nextDay initAnalyzer 1 100) 2 90) 3 95 =
      { start_date := some 1, start_value := some 100,
        portfolio_values := [100, 90, 95], dates := [1, 2, 3], peak_value := 100,
        max_drawdown := 1 / 10, max_drawdown_duration := 3,
        current_drawdown_duration := 3, in_drawdown := true,
        daily_returns := [-(1 / 10), 1 / 18] } := by
    rw [h2]; norm_num [nextDay, update_drawdown, Option.some_ne_none]
  have h4 : nextDay (nextDay (nextDay (nextDay initAnalyzer 1 100) 2 90) 3 95) 4 80 =
      { start_date := some 1, start_value := some 100,
        portfolio_values := [100, 90, 95, 80], dates := [1, 2, 3, 4],
        peak_value := 100, max_drawdown := 1 / 5, max_drawdown_duration := 4,
        current_drawdown_duration := 4, in_drawdown := true,
        daily_returns := [-(1 / 10), 1 / 18, -(3 / 19)] } := by
    rw [h3]; norm_num [nextDay, update_drawdown, Option.some_ne_none]
  have h5 : nextDay (nextDay (nextDay (nextDay (nextDay initAnalyzer 1 100) 2 90) 3 95) 4 80) 5 120 =
      { start_date := some 1, start_value := some 100,
        portfolio_values := [100, 90, 95, 80, 120], dates := [1, 2, 3, 4, 5],
        peak_value := 120, max_drawdown := 1 / 5, max_drawdown_duration := 4,
        current_drawdown_duration := 0, in_drawdown := false,
        daily_returns := [-(1 / 10), 1 / 18, -(3 / 19), 1 / 2] } := by
    rw [h4]; norm_num [nextDay, update_drawdown, Option.some_ne_none]
  show (nextDay (nextDay (nextDay (nextDay (nextDay initAnalyzer 1 100) 2 90) 3 95) 4 80) 5 120).max_drawdown = 1 / 5
  rw [h5]

/-- Claim C2, counterexample: with windows `N = M = 2`, an instrument in
the `FLAT_TRACKING` state, two prior bars of high 10 and a current bar
with close 25 and high 30, the close is strictly above the rolling high
of the *preceding* bars (10), so the claim predicts a buy intent — but
the source compares against `bt.indicators.Highest`, whose window
includes the current bar (value 30), so no intent is emitted. -/
theorem breakout_window_cex :
    spec_rolling_high_prior 2
        [{ high := 10, low := 9, close := 10 }, { high := 10, low := 9, close := 10 }]
        < ({ high := 30, low := 20, close := 25 } : Bar).close ∧
    (process_data 2 2 { tracking := true, entry_low := none, order_pending := false }
        [{ high := 10, low := 9, close := 10 }, { high := 10, low := 9, close := 10 }]
        { high := 30, low := 20, close := 25 } 0).2 = none := by
  constructor
  · norm_num [spec_rolling_high_prior, lastWindow, maxListQ]
  · norm_num [process_data, handle_no_position, smaVal, highestVal, lastWindow,
      maxListQ, max_def]

/-- Claim C2, amended: for an instrument in the `FLAT_TRACKING` state
(tracking set, no pending order, no position) with at least
`max(N, M)` bars of history, a buy intent is emitted on a bar exactly
when the bar's close is strictly greater than the rolling maximum high
over the last `M` bars *including the breakout bar itself* (the
`bt.indicators.Highest` window). -/
theorem breakout_entry_iff (sma_window high_window : Nat) (st : InstrState)
    (past : List Bar) (cur : Bar)
    (htrack : st.tracking = true) (hpend : st.order_pending = false)
    (hlen : max sma_window high_window ≤ (past ++ [cur]).length) :
    (process_data sma_window high_window st past cur 0).2 = some Intent.buy ↔
      highestVal high_window (past ++ [cur]) < cur.close := by
  have hnl : ¬ (past ++ [cur]).length < max sma_window high_window :=
    not_lt.mpr hlen
  simp only [process_data, handle_no_position, hnl, if_false, hpend, htrack]
  by_cases h : highestVal high_window (past ++ [cur]) < cur.close <;>
    simp [h, htrack]

/-- Witness for `breakout_entry_iff`: a concrete tracking state and bar
history on which the breakout fires. -/
theorem breakout_entry_iff_witness :
    ({ tracking := true, entry_low := none, order_pending := false } :
        InstrState).tracking = true ∧
    ({ tracking := true, entry_low := none, order_pending := false } :
        InstrState).order_pending = false ∧
    max 2 2 ≤
      (([{ high := 10, low := 9, close := 10 }, { high := 10, low := 9, close := 10 }] ++
          [{ high := 8, low := 7, close := 12 }] : List Bar)).length ∧
    ((process_data 2 2 { tracking := true, entry_low := none, order_pending := false }
        [{ high := 10, low := 9, close := 10 }, { high := 10, low := 9, close := 10 }]
        { high := 8, low := 7, close := 12 } 0).2 = some Intent.buy ↔
      highestVal 2
          ([{ high := 10, low := 9, close := 10 }, { high := 10, low := 9, close := 10 }] ++
            [{ high := 8, low := 7, close := 12 }] : List Bar)
        < ({ high := 8, low := 7, close := 12 } : Bar).close) :=
  ⟨rfl, rfl, by decide, breakout_entry_iff 2 2 _ _ _ rfl rfl (by decide)⟩

/-- Claim C7: for an instrument in the `LONG` state (nonzero position, no
pending order, enough history) with a recorded entry reference low `r`, a
bar whose intraday low is strictly below `r` produces a sell intent for
the entire current position size (and marks the order pending), and
otherwise the state is unchanged and no intent is emitted. -/
theorem stop_loss_exit (sma_window high_window : Nat) (st : InstrState)
    (past : List Bar) (cur : Bar) (position_size : Int) (r : ℚ)
    (hlow : st.entry_low = some r) (hpend : st.order_pending = false)
    (hpos : position_size ≠ 0)
    (hlen : max sma_window high_window ≤ (past ++ [cur]).length) :
    (cur.low < r →
      process_data sma_window high_window st past cur position_size =
        ({ st with order_pending := true }, some (Intent.sell position_size))) ∧
    (r ≤ cur.low →
      process_data sma_window high_window st past cur position_size =
        (st, none)) := by
  have hab := max_le_iff.mp hlen
  have hs : sma_window ≤ past.length + 1 := by simpa using hab.1
  have hh : high_window ≤ past.length + 1 := by simpa using hab.2
  constructor
  · intro h
    simp [process_data, handle_with_position, hlow, hpend, hpos, h, hs, hh]
  · intro h
    simp [process_data, handle_with_position, hlow, hpend, hpos,
      not_lt.mpr h, hs, hh]

/-- Witness for `stop_loss_exit`: a concrete long position stopped out by
a bar whose low breaches the entry reference low. -/
theorem stop_loss_exit_witness :
    ({ tracking := true, entry_low := some 50, order_pending := false } :
        InstrState).entry_low = some 50 ∧
    ({ tracking := true, entry_low := some 50, order_pending := false } :
        InstrState).order_pending = false ∧
    (7 : Int) ≠ 0 ∧
    max 1 1 ≤ ([] ++ [{ high := 60, low := 40, close := 55 }] : List Bar).length ∧
    ((({ high := 60, low := 40, close := 55 } : Bar).low < 50 →
      process_data 1 1 { tracking := true, entry_low := some 50, order_pending := false }
          [] { high := 60, low := 40, close := 55 } 7 =
        ({ tracking := true, entry_low := some 50, order_pending := true },
          some (Intent.sell 7))) ∧
    (50 ≤ ({ high := 60, low := 40, close := 55 } : Bar).low →
      process_data 1 1 { tracking := true, entry_low := some 50, order_pending := false }
          [] { high := 60, low := 40, close := 55 } 7 =
        ({ tracking := true, entry_low := some 50, order_pending := false }, none))) :=
  ⟨rfl, rfl, by decide, by decide,
    stop_loss_exit 1 1 _ [] _ 7 50 rfl rfl (by decide) (by decide)⟩

/-- Claim C6: the profit factor is the sum of winning trades' net P&L
divided by the absolute value of the losing trades' net P&L sum; when the
losing sum is zero the summary entry is the distinct string marker
`"Inf"` when the winning sum is positive, and the number 0 when there are
no trades.  The summary entry produced by `get_analysis` is either a
finite number or that string marker, so the `float('inf')` returned
internally never reaches the summary output. -/
theorem profit_factor_spec (pnl_comms : List ℚ) :
    (|((pnl_comms.filter (fun p => p < 0)).sum)| ≠ 0 →
      profit_factor_summary pnl_comms =
        SummaryVal.num (round2 ((pnl_comms.filter (fun p => 0 < p)).sum /
          |((pnl_comms.filter (fun p => p < 0)).sum)|))) ∧
    (|((pnl_comms.filter (fun p => p < 0)).sum)| = 0 →
      0 < (pnl_comms.filter (fun p => 0 < p)).sum →
      profit_factor_summary pnl_comms = SummaryVal.text "Inf") ∧
    (pnl_comms = [] → profit_factor_summary pnl_comms = SummaryVal.num 0) := by
  refine ⟨fun h => ?_, fun h0 hp => ?_, fun he => ?_⟩
  · simp [profit_factor_summary, calculate_profit_factor, h]
  · simp [profit_factor_summary, calculate_profit_factor, h0, hp]
  · subst he
    norm_num [profit_factor_summary, calculate_profit_factor, round2, pyRound]

/-- Witness for `profit_factor_spec`: winning net P&L sum 300 against
losing net P&L sum −100 yields a profit factor of 3.0 in the summary. -/
theorem profit_factor_spec_witness :
    |((([300, -100] : List ℚ).filter (fun p => p < 0)).sum)| ≠ 0 ∧
    profit_factor_summary [300, -100] = SummaryVal.num 3 := by
  have habs : |((([300, -100] : List ℚ).filter (fun p => p < 0)).sum)| = 100 := by
    norm_num [List.filter]
  have hwin : (([300, -100] : List ℚ).filter (fun p => 0 < p)).sum = 300 := by
    norm_num [List.filter]
  have hne : |((([300, -100] : List ℚ).filter (fun p => p < 0)).sum)| ≠ 0 := by
    rw [habs]; norm_num
  refine ⟨hne, ?_⟩
  have h := (profit_factor_spec [300, -100]).1 hne
  rw [h, habs, hwin]
  norm_num [round2, pyRound]

/-- Appending one value to a non-empty list takes the running maximum
with it. -/
theorem maxListQ_append (l : List ℚ) (v : ℚ) (hl : l ≠ []) :
    maxListQ (l ++ [v]) = max (maxListQ l) v := by
  cases l with
  | nil => exact absurd rfl hl
  | cons a t => simp [maxListQ, List.foldl_append]

/-- One `next` call never decreases `max_drawdown`: the drawdown branch
takes a `max` with the previous value and the new-peak branch leaves it
unchanged. -/
theorem nextDay_max_drawdown_mono (s : AnalyzerState) (d : Int) (v : ℚ) :
    s.max_drawdown ≤ (nextDay s d v).max_drawdown := by
  unfold nextDay update_drawdown
  dsimp only
  split <;> (try dsimp only) <;> split <;> (try dsimp only) <;>
    first
      | exact le_rfl
      | exact le_max_left _ _

/-- The first `next` call from the fresh analyzer establishes the tracker
invariant, with the single recorded value as peak. -/
theorem trackerInv_first (d : Int) (v : ℚ) (hv : 0 < v) :
    TrackerInv (nextDay initAnalyzer d v) ∧
    (nextDay initAnalyzer d v).portfolio_values = [v] := by
  refine ⟨⟨?_, ?_, ?_, ?_, ?_, ?_⟩, ?_⟩ <;>
    norm_num [nextDay, update_drawdown, initAnalyzer, TrackerInv, maxListQ,
      lt_irrefl, sub_self, zero_div, hv, Option.some_ne_none]

/-- A `next` call from a state satisfying the tracker invariant, with a
positive value, preserves the invariant and appends the value. -/
theorem trackerInv_step (s : AnalyzerState) (d : Int) (v : ℚ)
    (hs : TrackerInv s) (hv : 0 < v) :
    TrackerInv (nextDay s d v) ∧
    (nextDay s d v).portfolio_values = s.portfolio_values ++ [v] := by
  obtain ⟨hsd, hne, hpeak, hppos, hmd0, hmd1⟩ := hs
  unfold nextDay
  dsimp only
  rw [if_neg hsd]
  unfold update_drawdown
  dsimp only
  split
  case isTrue h =>
    refine ⟨⟨hsd, by simp, ?_, lt_trans hppos h, hmd0, hmd1⟩, rfl⟩
    rw [maxListQ_append _ _ hne, ← hpeak]
    exact (max_eq_right (le_of_lt h)).symm
  case isFalse h =>
    have hvle : v ≤ s.peak_value := not_lt.mp h
    refine ⟨⟨hsd, by simp, ?_, hppos, ?_, ?_⟩, rfl⟩
    · rw [maxListQ_append _ _ hne, ← hpeak]
      exact (max_eq_left hvle).symm
    · exact le_trans hmd0 (le_max_left _ _)
    · refine max_le hmd1 ?_
      rw [div_le_one hppos]
      linarith

/-- Folding positive records from an invariant-satisfying state preserves
the invariant and appends the values. -/
theorem trackerInv_fold (pts : List (Int × ℚ)) (s : AnalyzerState)
    (hs : TrackerInv s) (hpos : ∀ p ∈ pts, 0 < p.2) :
    TrackerInv (recordFrom s pts) ∧
    (recordFrom s pts).portfolio_values = s.portfolio_values ++ pts.map Prod.snd := by
  induction pts generalizing s with
  | nil => simpa [recordFrom] using hs
  | cons p t ih =>
    have hstep := trackerInv_step s p.1 p.2 hs (hpos p (by simp))
    have hrec : recordFrom s (p :: t) = recordFrom (nextDay s p.1 p.2) t := rfl
    rw [hrec]
    have ih2 := ih (nextDay s p.1 p.2) hstep.1 (fun q hq => hpos q (by simp [hq]))
    refine ⟨ih2.1, ?_⟩
    rw [ih2.2, hstep.2]
    simp

/-- After recording any non-empty sequence of positive equity points the
tracker invariant holds, and the recorded values are exactly the input
values in order. -/
theorem recordAll_good (pts : List (Int × ℚ)) (hne : pts ≠ [])
    (hpos : ∀ p ∈ pts, 0 < p.2) :
    TrackerInv (recordAll pts) ∧
    (recordAll pts).portfolio_values = pts.map Prod.snd := by
  cases pts with
  | nil => exact absurd rfl hne
  | cons p t =>
    have hfirst := trackerInv_first p.1 p.2 (hpos p (by simp))
    have hrec : recordAll (p :: t) = recordFrom (nextDay initAnalyzer p.1 p.2) t := rfl
    rw [hrec]
    have hfold := trackerInv_fold t (nextDay initAnalyzer p.1 p.2) hfirst.1
      (fun q hq => hpos q (by simp [hq]))
    refine ⟨hfold.1, ?_⟩
    rw [hfold.2, hfirst.2]
    simp

/-- Claim C4: for every non-empty sequence of positive equity values,
after each record `max_drawdown` is at least its previous value and lies
in `[0, 1]`, and `peak_value` equals the maximum of all values recorded
so far. -/
theorem drawdown_tracker_invariants (pts : List (Int × ℚ))
    (hpos : ∀ p ∈ pts, 0 < p.2) (n : Nat) (hn1 : 1 ≤ n) (hn : n ≤ pts.length) :
    (recordAll (pts.take (n - 1))).max_drawdown ≤
        (recordAll (pts.take n)).max_drawdown ∧
    0 ≤ (recordAll (pts.take n)).max_drawdown ∧
    (recordAll (pts.take n)).max_drawdown ≤ 1 ∧
    (recordAll (pts.take n)).peak_value = maxListQ ((pts.take n).map Prod.snd) := by
  have htlen : (pts.take n).length = n := by
    rw [List.length_take]
    omega
  have htne : pts.take n ≠ [] := by
    intro hcontra
    rw [hcontra] at htlen
    simp at htlen
    omega
  have hpos2 : ∀ p ∈ pts.take n, 0 < p.2 :=
    fun p hp => hpos p (List.take_subset n pts hp)
  have hgood := recordAll_good (pts.take n) htne hpos2
  obtain ⟨⟨_, _, hpeak, _, hmd0, hmd1⟩, hvals⟩ := hgood
  refine ⟨?_, hmd0, hmd1, by rw [hpeak, hvals]⟩
  obtain ⟨m, rfl⟩ : ∃ m, n = m + 1 := ⟨n - 1, by omega⟩
  have hm : m < pts.length := by omega
  have htake : pts.take (m + 1) = pts.take m ++ [pts.get ⟨m, hm⟩] := by
    rw [List.take_succ]
    simp [List.getElem?_eq_getElem hm]
  have hstep : recordAll (pts.take m ++ [pts.get ⟨m, hm⟩]) =
      nextDay (recordAll (pts.take m)) (pts.get ⟨m, hm⟩).1 (pts.get ⟨m, hm⟩).2 := by
    simp only [recordAll, recordFrom, List.foldl_append, List.foldl_cons,
      List.foldl_nil]
  rw [show m + 1 - 1 = m from rfl, htake, hstep]
  exact nextDay_max_drawdown_mono _ _ _

/-- Witness for `drawdown_tracker_invariants` on the two-point sequence
`[(1, 100), (2, 90)]` at the second record. -/
theorem drawdown_tracker_invariants_witness :
    (∀ p ∈ ([(1, 100), (2, 90)] : List (Int × ℚ)), 0 < p.2) ∧
    1 ≤ 2 ∧
    2 ≤ ([(1, 100), (2, 90)] : List (Int × ℚ)).length ∧
    ((recordAll (([(1, 100), (2, 90)] : List (Int × ℚ)).take (2 - 1))).max_drawdown ≤
        (recordAll (([(1, 100), (2, 90)] : List (Int × ℚ)).take 2)).max_drawdown ∧
    0 ≤ (recordAll (([(1, 100), (2, 90)] : List (Int × ℚ)).take 2)).max_drawdown ∧
    (recordAll (([(1, 100), (2, 90)] : List (Int × ℚ)).take 2)).max_drawdown ≤ 1 ∧
    (recordAll (([(1, 100), (2, 90)] : List (Int × ℚ)).take 2)).peak_value =
      maxListQ ((([(1, 100), (2, 90)] : List (Int × ℚ)).take 2).map Prod.snd)) :=
  ⟨by decide, by decide, by decide,
    drawdown_tracker_invariants _ (by decide) 2 (by decide) (by decide)⟩

/-- Inserting into a list is a permutation of consing. -/
theorem insertByEntry_perm (t : TradeInfo) (l : List TradeInfo) :
    (insertByEntry t l).Perm (t :: l) := by
  induction l with
  | nil => exact List.Perm.refl _
  | cons u us ih =>
    unfold insertByEntry
    split
    · exact List.Perm.refl _
    · exact (ih.cons u).trans (List.Perm.swap t u us)

/-- Insertion preserves sortedness by `entry_date`. -/
theorem insertByEntry_pairwise (t : TradeInfo) (l : List TradeInfo)
    (hl : l.Pairwise (fun a b => a.entry_date ≤ b.entry_date)) :
    (insertByEntry t l).Pairwise (fun a b => a.entry_date ≤ b.entry_date) := by
  induction l with
  | nil => simp [insertByEntry]
  | cons u us ih =>
    rw [List.pairwise_cons] at hl
    unfold insertByEntry
    split
    case isTrue h =>
      refine List.pairwise_cons.mpr ⟨?_, List.pairwise_cons.mpr ⟨hl.1, hl.2⟩⟩
      intro x hx
      rcases List.mem_cons.mp hx with rfl | hx2
      · exact h
      · exact le_trans h (hl.1 x hx2)
    case isFalse h =>
      refine List.pairwise_cons.mpr ⟨?_, ih hl.2⟩
      intro x hx
      have hmem := (insertByEntry_perm t us).mem_iff.mp hx
      rcases List.mem_cons.mp hmem with rfl | hx2
      · exact le_of_not_le h
      · exact hl.1 x hx2

/-- The sort is a permutation of its input. -/
theorem sortByEntry_perm (l : List TradeInfo) : (sortByEntry l).Perm l := by
  induction l with
  | nil => exact List.Perm.refl _
  | cons t ts ih => exact (insertByEntry_perm t (sortByEntry ts)).trans (ih.cons t)

/-- The sort output is sorted by `entry_date`. -/
theorem sortByEntry_pairwise (l : List TradeInfo) :
    (sortByEntry l).Pairwise (fun a b => a.entry_date ≤ b.entry_date) := by
  induction l with
  | nil => simp [sortByEntry]
  | cons t ts ih => exact insertByEntry_pairwise t _ ih


/-- Claim C9, counterexample: the exported trade table's header is
`entry_date, exit_date, symbol, size, entry_price, exit_price, pnl,
pnl_comm, commission, duration, return_pct` — the dict keys of
`trade_info` — and differs from the claimed header names `instrument`,
`pnl_net` and `holding_days` (third, eighth and tenth columns). -/
theorem trade_csv_headers_cex :
    (get_trades_dataframe [sampleTradeA]).1 =
      ["entry_date", "exit_date", "symbol", "size", "entry_price", "exit_price",
        "pnl", "pnl_comm", "commission", "duration", "return_pct"] ∧
    (get_trades_dataframe [sampleTradeA]).1 ≠
      ["entry_date", "exit_date", "instrument", "size", "entry_price", "exit_price",
        "pnl", "pnl_net", "commission", "holding_days", "return_pct"] := by
  constructor
  · rfl
  · decide

/-- Claim C9, amended: for a non-empty trade list the exported table uses
the column order and header names `entry_date, exit_date, symbol, size,
entry_price, exit_price, pnl, pnl_comm, commission, duration, return_pct`
(same order as the claim but with `symbol`, `pnl_comm` and `duration` in
place of `instrument`, `pnl_net` and `holding_days`), its rows are sorted
by entry date, and the rows are exactly the input trades with the
monetary and percentage fields rounded to 2 decimals (`size` and
`duration` are integers and are left unrounded). -/
theorem trade_csv_export_amended (trades : List TradeInfo)
    (hne : trades ≠ []) :
    (get_trades_dataframe trades).1 =
      ["entry_date", "exit_date", "symbol", "size", "entry_price", "exit_price",
        "pnl", "pnl_comm", "commission", "duration", "return_pct"] ∧
    (get_trades_dataframe trades).2.Pairwise
      (fun a b => a.entry_date ≤ b.entry_date) ∧
    (get_trades_dataframe trades).2.Perm (trades.map roundTrade) := by
  rw [get_trades_dataframe, if_neg hne]
  refine ⟨rfl, ?_, ?_⟩
  · exact List.Pairwise.map roundTrade (fun a b h => h) (sortByEntry_pairwise trades)
  · exact (sortByEntry_perm trades).map roundTrade

/-- Witness for `trade_csv_export_amended`: two trades given in reverse
entry-date order. -/
theorem trade_csv_export_amended_witness :
    ([sampleTradeB, sampleTradeA] : List TradeInfo) ≠ [] ∧
    ((get_trades_dataframe [sampleTradeB, sampleTradeA]).1 =
      ["entry_date", "exit_date", "symbol", "size", "entry_price", "exit_price",
        "pnl", "pnl_comm", "commission", "duration", "return_pct"] ∧
    (get_trades_dataframe [sampleTradeB, sampleTradeA]).2.Pairwise
      (fun a b => a.entry_date ≤ b.entry_date) ∧
    (get_trades_dataframe [sampleTradeB, sampleTradeA]).2.Perm
      (([sampleTradeB, sampleTradeA] : List TradeInfo).map roundTrade)) :=
  ⟨by decide, trade_csv_export_amended _ (by decide)⟩
